import Mathlib

/-!
Shallow embedding of `src/frogg_nfs_check_timed.py`, a single-file NFS
health-check utility.  The script shells out to `rpcinfo` and `showmount`,
parses their text output and prints one result line.

Modelling choices:
* The outcome of `subprocess.run` is abstracted into `ExecOutcome`:
  the process completed with (returncode, stdout, stderr), or it timed out
  (`subprocess.TimeoutExpired`), or invocation failed with some other
  exception (missing binary, permission denied, ...).  `run_command` is the
  Lean image of the Python `run_command`, mapping the outcome to the
  `(exit_code, stdout, stderr)` triple exactly as the `try/except` does.
* Python strings become Lean `String`; string scanning is done over
  `String.data : List Char`.  `str.splitlines()` is modelled with the
  newline character as line separator (the tool output the script parses is
  plain ASCII text), `str.split()` (no argument) as splitting on runs of
  whitespace discarding empties, `str.split(",")` as single-character
  separator split, and the `in` operator as substring containment.
* `re.search(r"version (\d+)", line)` is modelled by a left-to-right scan
  for the literal `"version "` followed by at least one ASCII digit, taking
  the maximal digit run — exactly the language of that regular expression.
* Python `set` objects: only membership and difference are observable in
  the script except for the iteration order of `list(not_found)`, which
  CPython does not specify (it depends on the string hash seed).  The
  embedding fixes the deterministic first-occurrence order of the requested
  list; the *set* of elements is faithful.
* `check_nfs_share` evaluates `line.split()[0]`, which raises `IndexError`
  on a token-free line; the embedding returns `Option String`, with `none`
  standing for that uncaught exception.
* `get_nfs_version` returns the Python int `-1` on failure and a string
  otherwise; the heterogeneous return type is `VersionResult`.
* Logging calls are side effects with no influence on the returned values
  and are not modelled.
-/

namespace FroggNfs

/-- Splits a character list at every occurrence of `sep`, keeping empty
pieces — the semantics of Python `str.split(sep)` for a one-character
separator (so `"".split(",") = [""]`). -/
def splitOnChar (sep : Char) : List Char → List (List Char)
  | [] => [[]]
  | c :: rest =>
    if c = sep then [] :: splitOnChar sep rest
    else
      match splitOnChar sep rest with
      | [] => [[c]]
      | h :: t => (c :: h) :: t

/-- Python `str.split(sep)` for a one-character separator. -/
def splitStr (sep : Char) (s : String) : List String :=
  (splitOnChar sep s.data).map String.mk

/-- Python `str.splitlines()`: split at newline characters; a trailing
newline does not produce a final empty line, and `"".splitlines() = []`. -/
def splitlines (s : String) : List String :=
  let parts := splitStr '\n' s
  if parts.getLast? = some "" then parts.dropLast else parts

/-- Accumulator-based splitting on runs of whitespace; empty tokens are
discarded.  `acc` holds the current token reversed. -/
def pySplitAux : List Char → List Char → List String
  | [], acc => if acc = [] then [] else [String.mk acc.reverse]
  | c :: rest, acc =>
    if c.isWhitespace then
      if acc = [] then pySplitAux rest []
      else String.mk acc.reverse :: pySplitAux rest []
    else pySplitAux rest (c :: acc)

/-- Python `str.split()` with no argument: split on runs of whitespace,
never producing empty tokens (so a blank line yields `[]`). -/
def pySplit (s : String) : List String :=
  pySplitAux s.data []

/-- Substring containment on character lists (Python `needle in hay`). -/
def listSub (needle : List Char) : List Char → Bool
  | [] => needle.isEmpty
  | c :: t => needle.isPrefixOf (c :: t) || listSub needle t

/-- Python `needle in hay` for strings. -/
def substrIn (needle hay : String) : Bool :=
  listSub needle.data hay.data

/-- Decimal value of a digit run (the regex group is `\d+`, so all
characters are ASCII digits). -/
def digitsToNat (cs : List Char) : Nat :=
  cs.foldl (fun n c => 10 * n + (c.toNat - 48)) 0

/-- Left-to-right scan realising `re.search(r"version (\d+)", line)`:
at each position, match the literal `"version "` followed by a maximal
nonempty ASCII digit run; the first such position wins. -/
def findVersionAux : List Char → Option Nat
  | [] => none
  | c :: rest =>
    if ("version ".data).isPrefixOf (c :: rest) then
      let ds := ((c :: rest).drop 8).takeWhile Char.isDigit
      if ds = [] then findVersionAux rest else some (digitsToNat ds)
    else findVersionAux rest

/-- `int(match.group(1))` for the first `version (\d+)` match in `line`,
`none` when `re.search` returns no match. -/
def findVersionNum (line : String) : Option Nat :=
  findVersionAux line.data

/-- Outcome of attempting to execute an external process: it ran to
completion, it hit the timeout (`subprocess.TimeoutExpired`), or the
invocation itself failed with an exception message. -/
inductive ExecOutcome where
  | completed (returncode : Int) (stdout stderr : String)
  | timedOut
  | failed (errMsg : String)
deriving DecidableEq

/-- A single quote character, used in the timeout message. -/
def squote : String := String.singleton '\''

/-- The message built by the `subprocess.TimeoutExpired` handler. -/
def timeoutMsg (command : List String) (timeout : Nat) : String :=
  "Command " ++ squote ++ String.intercalate " " command ++ squote ++
    " timed out after " ++ toString timeout ++ " seconds."

/-- `run_command(command, timeout=10)`: runs the process and returns
`(returncode, stdout, stderr)`; on `TimeoutExpired` returns
`(124, "", <timeout message>)`; on any other exception returns
`(1, "", str(e))`.  The `ExecOutcome` argument stands for what
`subprocess.run` did. -/
def run_command (command : List String) (timeout : Nat := 10)
    (o : ExecOutcome) : Int × String × String :=
  match o with
  | .completed rc out err => (rc, out, err)
  | .timedOut => (124, "", timeoutMsg command timeout)
  | .failed e => (1, "", e)

/-- Return type of `get_nfs_version`: the Python function returns the int
`-1` on command failure and a string otherwise. -/
inductive VersionResult where
  | intVal (n : Int)
  | strVal (s : String)
deriving DecidableEq

/-- What `print` writes for a `VersionResult` (Python `print(-1)` prints
`-1`, `print(s)` prints `s`). -/
def pyPrint : VersionResult → String
  | .intVal n => toString n
  | .strVal s => s

/-- The argument list `["rpcinfo", "-t", server, "nfs"]`. -/
def rpcinfoCmd (server : String) : List String :=
  ["rpcinfo", "-t", server, "nfs"]

/-- The argument list `["showmount", "-e", server]`. -/
def showmountCmd (server : String) : List String :=
  ["showmount", "-e", server]

/-- The version-extraction loop of `get_nfs_version`: for each line of
stdout containing `"ready and waiting"`, the first `version (\d+)` match
is appended, in line order. -/
def extractVersions (stdout : String) : List Nat :=
  (splitlines stdout).filterMap fun line =>
    if substrIn "ready and waiting" line then findVersionNum line else none

/-- `get_nfs_version(server)`: runs `rpcinfo -t <server> nfs` through
`run_command`; on non-zero exit returns the int `-1`; otherwise collects
the advertised versions and returns `str(max(versions))`, or `"0"` when no
line matched.  `vs.foldl Nat.max v` is Python `max(v :: vs)`. -/
def get_nfs_version (server : String) (o : ExecOutcome) : VersionResult :=
  let r := run_command (rpcinfoCmd server) 10 o
  if r.1 ≠ 0 then .intVal (-1)
  else
    match extractVersions r.2.1 with
    | [] => .strVal "0"
    | v :: vs => .strVal (toString (vs.foldl Nat.max v))

/-- `set(line.split()[0] for line in stdout.splitlines()[1:])`, with `none`
for the `IndexError` raised when some line after the header has no
whitespace-delimited token.  The set is represented by the list of first
tokens in line order (only membership is observable). -/
def firstTokens : List String → Option (List String)
  | [] => some []
  | l :: rest =>
    match (pySplit l).head? with
    | none => none
    | some t =>
      match firstTokens rest with
      | none => none
      | some ts => some (t :: ts)

/-- The available-share set parsed from a successful `showmount` stdout:
first whitespace token of every line after the first (header) line. -/
def availableShares (stdout : String) : Option (List String) :=
  firstTokens ((splitlines stdout).drop 1)

/-- Hexadecimal digit character (lowercase, as `json.dumps` emits). -/
def hexDigit (n : Nat) : Char :=
  if n < 10 then Char.ofNat (48 + n) else Char.ofNat (87 + n)

/-- JSON escaping of one character as `json.dumps` does with the default
`ensure_ascii=True` (characters above the Basic Multilingual Plane, which
need surrogate pairs, do not occur in share paths and are modelled by a
single escape). -/
def jsonEscapeChar (c : Char) : String :=
  if c = '"' then "\\\""
  else if c = '\\' then "\\\\"
  else if c = '\n' then "\\n"
  else if c = '\t' then "\\t"
  else if c = '\r' then "\\r"
  else if c.toNat = 8 then "\\b"
  else if c.toNat = 12 then "\\f"
  else if c.toNat < 32 ∨ c.toNat > 126 then
    String.mk ['\\', 'u', hexDigit (c.toNat / 4096 % 16),
      hexDigit (c.toNat / 256 % 16), hexDigit (c.toNat / 16 % 16),
      hexDigit (c.toNat % 16)]
  else String.singleton c

/-- A JSON string literal for `s`. -/
def jsonStr (s : String) : String :=
  "\"" ++ String.join (s.data.map jsonEscapeChar) ++ "\""

/-- `json.dumps(l)` for a list of strings (default separators). -/
def jsonDumps (l : List String) : String :=
  "[" ++ String.intercalate ", " (l.map jsonStr) ++ "]"

/-- `requested_shares - available_shares` as a list: the requested shares
(comma-split, duplicates collapsed to their first occurrence, which fixes
the unspecified CPython set iteration order) that are not available. -/
def notFound (shares : String) (avail : List String) : List String :=
  ((splitStr ',' shares).dedup).filter fun s => decide (s ∉ avail)

/-- `check_nfs_share(server, shares)`: runs `showmount -e <server>`
through `run_command`; on non-zero exit returns `"Error: " ++ stderr`;
otherwise computes `requested − available` and returns its JSON dump when
nonempty, else the empty string.  `none` models the uncaught `IndexError`
from `line.split()[0]` on a token-free line. -/
def check_nfs_share (server shares : String) (o : ExecOutcome) :
    Option String :=
  let r := run_command (showmountCmd server) 10 o
  if r.1 ≠ 0 then some ("Error: " ++ r.2.2)
  else
    match availableShares r.2.1 with
    | none => none
    | some avail =>
      let nf := notFound shares avail
      if nf ≠ [] then some (jsonDumps nf) else some ""

/-- How the process ends: a (possibly implicit) `sys.exit(code)`, or an
exception propagating out of `main` (uncaught `IndexError`). -/
inductive Termination where
  | exited (code : Nat)
  | raised
deriving DecidableEq

/-- The environment `main` runs in: `sys.argv` (element 0 is the program
name), whether `socket.gethostbyname(server)` succeeds, and what
`subprocess.run` does for each of the two possible external commands. -/
structure Env where
  argv : List String
  resolves : Bool
  rpcinfo : ExecOutcome
  showmount : ExecOutcome

/-- Observable behaviour of one run of `main`: how it terminated, what it
printed to stdout, and which external commands it invoked, in order. -/
structure MainOut where
  term : Termination
  printed : Option String
  cmds : List (List String)
deriving DecidableEq

/-- `main()`: argument check, hostname resolution, dispatch on the action,
print the result.  Fewer than three `argv` entries, a resolution failure,
a missing shares argument for `share`, and an unknown action each exit 1;
a completed check prints its result and falls off the end of `main`
(exit 0); an uncaught `IndexError` from `check_nfs_share` propagates. -/
def main (env : Env) : MainOut :=
  if env.argv.length < 3 then ⟨.exited 1, none, []⟩
  else
    let action := env.argv.getD 1 ""
    let server := env.argv.getD 2 ""
    if env.resolves then
      if action = "version" then
        ⟨.exited 0, some (pyPrint (get_nfs_version server env.rpcinfo)),
          [rpcinfoCmd server]⟩
      else if action = "share" then
        if env.argv.length < 4 then ⟨.exited 1, none, []⟩
        else
          match check_nfs_share server (env.argv.getD 3 "") env.showmount with
          | some r => ⟨.exited 0, some r, [showmountCmd server]⟩
          | none => ⟨.raised, none, [showmountCmd server]⟩
      else ⟨.exited 1, none, []⟩
    else ⟨.exited 1, none, []⟩

/-! ### Helper lemmas -/

theorem listSub_of_isPrefixOf {n h : List Char} (hp : n.isPrefixOf h = true) :
    listSub n h = true := by
  cases h with
  | nil =>
    cases n with
    | nil => rfl
    | cons c t => simp [List.isPrefixOf] at hp
  | cons c t => simp [listSub, hp]

theorem listSub_cons {n t : List Char} (c : Char) (hs : listSub n t = true) :
    listSub n (c :: t) = true := by
  simp [listSub, hs]

theorem listSub_append_left (a : List Char) {n h : List Char}
    (hs : listSub n h = true) : listSub n (a ++ h) = true := by
  induction a with
  | nil => exact hs
  | cons c t ih => exact listSub_cons c ih

theorem listSub_sandwich (n a b : List Char) :
    listSub n (a ++ (n ++ b)) = true :=
  listSub_append_left a
    (listSub_of_isPrefixOf (List.isPrefixOf_iff_prefix.mpr (List.prefix_append n b)))

theorem substrIn_sandwich (n a b : String) :
    substrIn n (a ++ n ++ b) = true := by
  obtain ⟨ad⟩ := a
  obtain ⟨nd⟩ := n
  obtain ⟨bd⟩ := b
  show listSub nd ((ad ++ nd) ++ bd) = true
  rw [List.append_assoc]
  exact listSub_sandwich nd ad bd

/-! ### C3 -/

/-- C3: `run_command` never propagates an exception: every execution
outcome is mapped to an `(exit code, stdout, stderr)` triple.  On timeout
it returns the sentinel code 124 with empty stdout and a message that
contains the elapsed timeout value; on any other execution failure it
returns exit code 1 together with the error text; a completed process
yields its own triple. -/
theorem run_command_never_throws (cmd : List String) (t : Nat) :
    run_command cmd t .timedOut = (124, "", timeoutMsg cmd t) ∧
    substrIn (toString t) (timeoutMsg cmd t) = true ∧
    (∀ e, run_command cmd t (.failed e) = (1, "", e)) ∧
    ∀ rc out err, run_command cmd t (.completed rc out err) = (rc, out, err) := by
  refine ⟨rfl, ?_, fun e => rfl, fun rc out err => rfl⟩
  exact substrIn_sandwich (toString t)
    ("Command " ++ squote ++ String.intercalate " " cmd ++ squote ++
      " timed out after ") " seconds."

/-- C3 witness: the characterisation at the concrete `rpcinfo` command and
the default 10-second timeout. -/
theorem run_command_never_throws_witness :
    run_command ["rpcinfo", "-t", "srv", "nfs"] 10 .timedOut =
      (124, "", timeoutMsg ["rpcinfo", "-t", "srv", "nfs"] 10) ∧
    substrIn (toString 10)
      (timeoutMsg ["rpcinfo", "-t", "srv", "nfs"] 10) = true ∧
    (∀ e, run_command ["rpcinfo", "-t", "srv", "nfs"] 10 (.failed e) =
      (1, "", e)) ∧
    ∀ rc out err,
      run_command ["rpcinfo", "-t", "srv", "nfs"] 10 (.completed rc out err) =
        (rc, out, err) :=
  run_command_never_throws ["rpcinfo", "-t", "srv", "nfs"] 10

/-! ### C4 -/

/-- C4: whenever the `rpcinfo` invocation reports a non-zero exit code,
`get_nfs_version` returns the numeric `-1` sentinel (the error marker this
source variant uses) and never crashes. -/
theorem get_nfs_version_error_sentinel (server out err : String) (rc : Int)
    (h : rc ≠ 0) :
    get_nfs_version server (.completed rc out err) = .intVal (-1) := by
  simp [get_nfs_version, run_command, h]

/-- C4 witness: exit code 2 yields the `-1` sentinel. -/
theorem get_nfs_version_error_sentinel_witness :
    get_nfs_version "srv" (.completed 2 "" "rpcinfo: can't contact portmapper") =
      .intVal (-1) :=
  get_nfs_version_error_sentinel "srv" "" "rpcinfo: can't contact portmapper" 2
    (by decide)

/-! ### C5 -/

/-- C5: on exit code 0, if no stdout line both contains
`"ready and waiting"` and has a parseable `version N`, `get_nfs_version`
returns the string `"0"`, which is distinct from the `-1` error marker. -/
theorem get_nfs_version_no_match_zero (server out err : String)
    (h : ∀ line ∈ splitlines out,
      substrIn "ready and waiting" line = false ∨ findVersionNum line = none) :
    get_nfs_version server (.completed 0 out err) = .strVal "0" ∧
    (VersionResult.strVal "0" ≠ .intVal (-1)) := by
  have hv : extractVersions out = [] := by
    refine List.filterMap_eq_nil_iff.mpr fun line hl => ?_
    rcases h line hl with h1 | h1
    · simp [h1]
    · simp [h1]
  refine ⟨?_, by simp⟩
  simp [get_nfs_version, run_command, hv]

/-- C5 witness: output with no "ready and waiting" line yields `"0"`. -/
theorem get_nfs_version_no_match_zero_witness :
    get_nfs_version "srv"
      (.completed 0 "rpcinfo: RPC program not registered" "") = .strVal "0" :=
  (get_nfs_version_no_match_zero "srv" "rpcinfo: RPC program not registered" ""
    (by decide)).1

/-! ### C1 -/

theorem foldl_max_spec (vs : List Nat) (v : Nat) :
    v ≤ vs.foldl Nat.max v ∧ (∀ x ∈ vs, x ≤ vs.foldl Nat.max v) ∧
      vs.foldl Nat.max v ∈ v :: vs := by
  induction vs generalizing v with
  | nil => exact ⟨Nat.le_refl v, by simp, by simp⟩
  | cons b bs ih =>
    obtain ⟨h1, h2, h3⟩ := ih (Nat.max v b)
    simp only [List.foldl_cons]
    refine ⟨Nat.le_trans (Nat.le_max_left v b) h1, ?_, ?_⟩
    · intro x hx
      rcases List.mem_cons.mp hx with hxb | hx
      · rw [hxb]
        exact Nat.le_trans (Nat.le_max_right v b) h1
      · exact h2 x hx
    · rcases List.mem_cons.mp h3 with he | hm
      · rw [he]
        rcases Nat.le_total v b with hvb | hbv
        · have hb : Nat.max v b = b :=
            Nat.le_antisymm (Nat.max_le.mpr ⟨hvb, Nat.le_refl b⟩)
              (Nat.le_max_right v b)
          rw [hb]
          exact List.mem_cons_of_mem v (List.mem_cons_self b bs)
        · have hb : Nat.max v b = v :=
            Nat.le_antisymm (Nat.max_le.mpr ⟨Nat.le_refl v, hbv⟩)
              (Nat.le_max_left v b)
          rw [hb]
          exact List.mem_cons_self v (b :: bs)
      · exact List.mem_cons_of_mem v (List.mem_cons_of_mem b hm)

/-- C1: on exit code 0, `get_nfs_version` extracts the integer following
`"version"` from every line containing `"ready and waiting"` and returns
the maximum of those integers as a decimal string; for the two
`"version 3"`/`"version 4"` lines in either order it returns `"4"`. -/
theorem get_nfs_version_reports_max :
    (∀ (server out err : String) (v : Nat) (vs : List Nat),
      extractVersions out = v :: vs →
      ∃ m, m ∈ v :: vs ∧ (∀ x ∈ v :: vs, x ≤ m) ∧
        get_nfs_version server (.completed 0 out err) =
          .strVal (toString m)) ∧
    get_nfs_version "srv" (.completed 0
      ("program 100003 version 3 ready and waiting\n" ++
       "program 100003 version 4 ready and waiting") "") = .strVal "4" ∧
    get_nfs_version "srv" (.completed 0
      ("program 100003 version 4 ready and waiting\n" ++
       "program 100003 version 3 ready and waiting") "") = .strVal "4" := by
  refine ⟨?_, by decide, by decide⟩
  intro server out err v vs hv
  obtain ⟨h1, h2, h3⟩ := foldl_max_spec vs v
  refine ⟨vs.foldl Nat.max v, h3, ?_, ?_⟩
  · intro x hx
    rcases List.mem_cons.mp hx with rfl | hx
    · exact h1
    · exact h2 x hx
  · simp [get_nfs_version, run_command, hv]

/-- C1 witness: the general maximum property applied to the concrete
two-line `rpcinfo` output, whose extracted version list is `[3, 4]`. -/
theorem get_nfs_version_reports_max_witness :
    ∃ m, m ∈ [3, 4] ∧ (∀ x ∈ [3, 4], x ≤ m) ∧
      get_nfs_version "srv" (.completed 0
        ("program 100003 version 3 ready and waiting\n" ++
         "program 100003 version 4 ready and waiting") "") =
        .strVal (toString m) :=
  get_nfs_version_reports_max.1 "srv"
    ("program 100003 version 3 ready and waiting\n" ++
     "program 100003 version 4 ready and waiting") "" 3 [4] (by decide)

/-! ### C2 -/

/-- C2: on exit code 0, `check_nfs_share` takes the first whitespace token
of every stdout line after the header as the available shares, splits the
requested argument on commas, and computes requested minus available: a
share is missing iff it is requested and not available, an empty
difference yields the empty string, and on the concrete two-export listing
the request `"/srv/a,/srv/c"` yields exactly `["/srv/c"]` while
`"/srv/a,/srv/b"` yields the empty string. -/
theorem check_nfs_share_missing_set :
    (∀ (server shares out err : String) (avail : List String),
      availableShares out = some avail →
      (∀ s, s ∈ notFound shares avail ↔
        s ∈ splitStr ',' shares ∧ s ∉ avail) ∧
      (notFound shares avail = [] →
        check_nfs_share server shares (.completed 0 out err) = some "")) ∧
    availableShares "Export list for srv:\n/srv/a *\n/srv/b *\n" =
      some ["/srv/a", "/srv/b"] ∧
    check_nfs_share "srv" "/srv/a,/srv/c"
      (.completed 0 "Export list for srv:\n/srv/a *\n/srv/b *\n" "") =
      some "[\"/srv/c\"]" ∧
    check_nfs_share "srv" "/srv/a,/srv/b"
      (.completed 0 "Export list for srv:\n/srv/a *\n/srv/b *\n" "") =
      some "" := by
  refine ⟨?_, by decide, by decide, by decide⟩
  intro server shares out err avail ha
  constructor
  · intro s
    simp [notFound, List.mem_filter, List.mem_dedup]
  · intro hnf
    simp [check_nfs_share, run_command, ha, hnf]

/-- C2 witness: the general set-difference property applied to the
concrete listing, where every requested share is available. -/
theorem check_nfs_share_missing_set_witness :
    check_nfs_share "srv" "/srv/a,/srv/b"
      (.completed 0 "Export list for srv:\n/srv/a *\n/srv/b *\n" "") =
      some "" :=
  (check_nfs_share_missing_set.1 "srv" "/srv/a,/srv/b"
    "Export list for srv:\n/srv/a *\n/srv/b *\n" "" ["/srv/a", "/srv/b"]
    (by decide)).2 (by decide)

/-! ### C6 -/

/-- C6: whenever the `showmount` invocation reports a non-zero exit code,
`check_nfs_share` returns (does not raise) an error string embedding the
captured stderr text, not a share listing. -/
theorem check_nfs_share_error_string (server shares out err : String)
    (rc : Int) (h : rc ≠ 0) :
    check_nfs_share server shares (.completed rc out err) =
      some ("Error: " ++ err) := by
  simp [check_nfs_share, run_command, h]

/-- C6 witness: exit code 1 embeds the stderr text after `"Error: "`. -/
theorem check_nfs_share_error_string_witness :
    check_nfs_share "srv" "/srv/a"
      (.completed 1 "" "clnt_create: RPC: Program not registered") =
      some "Error: clnt_create: RPC: Program not registered" :=
  check_nfs_share_error_string "srv" "/srv/a" ""
    "clnt_create: RPC: Program not registered" 1 (by decide)

/-! ### C9 -/

theorem firstTokens_isSome {l : List String}
    (h : ∀ x ∈ l, pySplit x ≠ []) : (firstTokens l).isSome = true := by
  induction l with
  | nil => rfl
  | cons a t ih =>
    have ha : ((pySplit a).head?).isSome = true := by
      cases hp : pySplit a with
      | nil => exact absurd hp (h a (List.mem_cons_self a t))
      | cons x xs => rfl
    obtain ⟨tok, htok⟩ := Option.isSome_iff_exists.mp ha
    obtain ⟨ts, hts⟩ := Option.isSome_iff_exists.mp
      (ih fun x hx => h x (List.mem_cons_of_mem a hx))
    simp [firstTokens, htok, hts]

/-- C9: `check_nfs_share` is total on a successful `showmount` output only
when every line after the header has at least one whitespace-delimited
token (`line.split()[0]` is unguarded): under that precondition a result
is returned, while a blank line after the header reaches the `IndexError`
branch and no result is returned. -/
theorem check_nfs_share_index_error :
    (∀ (server shares out err : String),
      (∀ line ∈ (splitlines out).drop 1, pySplit line ≠ []) →
      (check_nfs_share server shares (.completed 0 out err)).isSome = true) ∧
    check_nfs_share "srv" "/srv/a"
      (.completed 0 "Export list for srv:\n\n/srv/a *\n" "") = none := by
  refine ⟨?_, by decide⟩
  intro server shares out err h
  obtain ⟨avail, havail⟩ := Option.isSome_iff_exists.mp (firstTokens_isSome h)
  have h2 : availableShares out = some avail := havail
  simp only [check_nfs_share, run_command, h2]
  split
  · simp_all
  · split <;> simp

/-- C9 witness: totality applied to an output whose only non-header line
has a token. -/
theorem check_nfs_share_index_error_witness :
    (check_nfs_share "srv" "/srv/a"
      (.completed 0 "Export list for srv:\n/srv/a *\n" "")).isSome = true :=
  check_nfs_share_index_error.1 "srv" "/srv/a"
    "Export list for srv:\n/srv/a *\n" "" (by decide)

/-! ### C10 -/

/-- C10: splitting the empty shares argument on commas yields the
singleton list containing the empty string, so against any successful
listing whose first tokens are all non-empty the reported missing set is
the JSON array `[""]` rather than the empty success string; duplicates in
the requested list are collapsed (the missing list never repeats), and
comparison is exact string equality with no whitespace trimming (a
requested `" /srv/a"` is missing even though `"/srv/a"` is exported). -/
theorem check_nfs_share_empty_request :
    (∀ (server out err : String) (avail : List String),
      availableShares out = some avail → "" ∉ avail →
      check_nfs_share server "" (.completed 0 out err) = some "[\"\"]") ∧
    splitStr ',' "" = [""] ∧
    (∀ (shares : String) (avail : List String),
      (notFound shares avail).Nodup) ∧
    check_nfs_share "srv" "/srv/a, /srv/a"
      (.completed 0 "Export list for srv:\n/srv/a *\n" "") =
      some "[\" /srv/a\"]" := by
  refine ⟨?_, by decide, ?_, by decide⟩
  · intro server out err avail ha hn
    have hnf : notFound "" avail = [""] := by
      have hd : notFound "" avail = List.filter
          (fun s => decide (s ∉ avail)) [""] := by
        rfl
      rw [hd]
      simp [List.filter, hn]
    simp [check_nfs_share, run_command, ha, hnf]
    decide
  · intro shares avail
    exact List.Nodup.filter _ (List.nodup_dedup _)

/-- C10 witness: the empty shares argument against a listing exporting
`/srv/a` reports the JSON array containing the empty string. -/
theorem check_nfs_share_empty_request_witness :
    check_nfs_share "srv" ""
      (.completed 0 "Export list for srv:\n/srv/a *\n" "") =
      some "[\"\"]" :=
  check_nfs_share_empty_request.1 "srv" "Export list for srv:\n/srv/a *\n" ""
    ["/srv/a"] (by decide) (by decide)

/-! ### C7 -/

/-- C7: when the server hostname fails to resolve (and enough arguments
were given to reach the resolution step), `main` exits with code 1 having
printed nothing and invoked no external command. -/
theorem main_unresolved_host_exits_first (env : Env)
    (hargs : 3 ≤ env.argv.length) (hres : env.resolves = false) :
    main env = ⟨.exited 1, none, []⟩ := by
  have h3 : ¬ env.argv.length < 3 := by omega
  simp [main, h3, hres]

/-- C7 witness: an unresolvable host with a full argument vector. -/
theorem main_unresolved_host_exits_first_witness :
    main ⟨["frogg_nfs_check_timed.py", "version", "nohost"], false,
      .completed 0 "" "", .completed 0 "" ""⟩ =
      ⟨.exited 1, none, []⟩ :=
  main_unresolved_host_exits_first _ (by decide) rfl

/-! ### C8 -/

/-- C8: a dispatched check that completes makes `main` exit 0 and print
the check's result string — even when that result is an internally
reported error — while a normal non-zero exit happens only with code 1
and only for missing arguments, resolution failure, a missing shares
argument, or an unknown action. -/
theorem main_exit_code_policy (env : Env) :
    (3 ≤ env.argv.length → env.resolves = true →
      env.argv.getD 1 "" = "version" →
      main env = ⟨.exited 0,
        some (pyPrint (get_nfs_version (env.argv.getD 2 "") env.rpcinfo)),
        [rpcinfoCmd (env.argv.getD 2 "")]⟩) ∧
    (∀ r, 4 ≤ env.argv.length → env.resolves = true →
      env.argv.getD 1 "" = "share" →
      check_nfs_share (env.argv.getD 2 "") (env.argv.getD 3 "")
        env.showmount = some r →
      main env = ⟨.exited 0, some r, [showmountCmd (env.argv.getD 2 "")]⟩) ∧
    (∀ c, (main env).term = .exited c → c ≠ 0 →
      c = 1 ∧ (env.argv.length < 3 ∨ env.resolves = false ∨
        (env.argv.getD 1 "" = "share" ∧ env.argv.length < 4) ∨
        (env.argv.getD 1 "" ≠ "version" ∧ env.argv.getD 1 "" ≠ "share"))) := by
  refine ⟨?_, ?_, ?_⟩
  · intro h3 hres hv
    have h3' : ¬ env.argv.length < 3 := by omega
    simp only [List.getD_eq_getElem?_getD] at hv
    simp [main, h3', hres, hv]
  · intro r h4 hres hs hcheck
    have h3' : ¬ env.argv.length < 3 := by omega
    have h4' : ¬ env.argv.length < 4 := by omega
    simp only [List.getD_eq_getElem?_getD] at hs hcheck
    simp [main, h3', h4', hres, hs, hcheck]
  · intro c hterm hc
    by_cases h3 : env.argv.length < 3
    · simp [main, h3] at hterm
      exact ⟨hterm.symm, Or.inl h3⟩
    · by_cases hr : env.resolves = true
      · by_cases hv : env.argv.getD 1 "" = "version"
        · have hv' := hv
          simp only [List.getD_eq_getElem?_getD] at hv'
          simp [main, h3, hr, hv'] at hterm
          exact absurd hterm.symm hc
        · have hv' := hv
          simp only [List.getD_eq_getElem?_getD] at hv'
          by_cases hs : env.argv.getD 1 "" = "share"
          · have hs' := hs
            simp only [List.getD_eq_getElem?_getD] at hs'
            by_cases h4 : env.argv.length < 4
            · simp [main, h3, hr, hv', hs', h4] at hterm
              exact ⟨hterm.symm, Or.inr (Or.inr (Or.inl ⟨hs, h4⟩))⟩
            · cases hcheck : check_nfs_share (env.argv.getD 2 "")
                (env.argv.getD 3 "") env.showmount with
              | some r =>
                have hcheck' := hcheck
                simp only [List.getD_eq_getElem?_getD] at hcheck'
                simp [main, h3, hr, hv', hs', h4, hcheck'] at hterm
                exact absurd hterm.symm hc
              | none =>
                have hcheck' := hcheck
                simp only [List.getD_eq_getElem?_getD] at hcheck'
                simp [main, h3, hr, hv', hs', h4, hcheck'] at hterm
          · have hs' := hs
            simp only [List.getD_eq_getElem?_getD] at hs'
            simp [main, h3, hr, hv', hs'] at hterm
            exact ⟨hterm.symm, Or.inr (Or.inr (Or.inr ⟨hv, hs⟩))⟩
      · have hrf : env.resolves = false := by simpa using hr
        simp [main, h3, hrf] at hterm
        exact ⟨hterm.symm, Or.inr (Or.inl hrf)⟩

/-- C8 witness: a timed-out `rpcinfo` still completes the version check,
which prints the `-1` sentinel and exits 0. -/
theorem main_exit_code_policy_witness :
    main ⟨["frogg_nfs_check_timed.py", "version", "srv"], true,
      .timedOut, .completed 0 "" ""⟩ =
      ⟨.exited 0, some (pyPrint (get_nfs_version "srv" .timedOut)),
        [rpcinfoCmd "srv"]⟩ :=
  (main_exit_code_policy _).1 (by decide) rfl rfl

end FroggNfs
